import Mathlib

/-!
Shallow embedding of the Stock_trader repository's core pipeline
(`Miscellaneous/app1.py` and `new_app.py`): rolling indicators, the
Bollinger-band and SMA-crossover signal strategies, the log-return
compounding capital simulator, the investment-style parameter table, and
the simplified investment-growth comparator.

Modeling conventions.  A real-valued pandas column is a `List ℝ`; a column
that can hold NaN is a `List (Option ℝ)` with `none` for NaN (pandas
comparisons against NaN are false, and arithmetic with NaN yields NaN,
which the pointwise combinators below reproduce).  A pandas `DataFrame` is
a record of columns; a derived column that has not been assigned yet is
`none` at the frame level.  In-place column assignment (`data[c] = ...`)
is modeled by explicit state passing: the frame returned by a stage is the
caller's frame as it stands after the call.
-/

/-- Mean of a list of reals, as computed by pandas `Series.mean()`:
sum of the entries divided by their count. -/
noncomputable def listMean (l : List ℝ) : ℝ := l.sum / l.length

/-- The trailing window of width `w` ending at index `i`: the elements at
indices `i+1-w` through `i` of `xs`. -/
def windowAt (xs : List ℝ) (w i : Nat) : List ℝ := (xs.take (i + 1)).drop (i + 1 - w)

/-- Models `series.rolling(window=w).mean()` from `calculate_bollinger_bands`
and `calculate_sma` (`app1.py` lines 9, 18-19): entry `i` is NaN (`none`)
until the window is fully populated (`i ≥ w-1`), and the arithmetic mean of
the trailing `w` entries afterwards. -/
noncomputable def rollingMean (xs : List ℝ) (w : Nat) : List (Option ℝ) :=
  (List.range xs.length).map fun i =>
    if 1 ≤ w ∧ w ≤ i + 1 then some (listMean (windowAt xs w i)) else none

theorem rollingMean_length (xs : List ℝ) (w : Nat) :
    (rollingMean xs w).length = xs.length := by
  simp [rollingMean]

theorem rollingMean_get? (xs : List ℝ) (w i : Nat) (hi : i < xs.length) :
    (rollingMean xs w).get? i =
      some (if 1 ≤ w ∧ w ≤ i + 1 then some (listMean (windowAt xs w i)) else none) := by
  rw [rollingMean, List.get?_eq_getElem?, List.getElem?_map, List.getElem?_range hi]
  rfl

theorem windowAt_length (xs : List ℝ) (w i : Nat) (h1 : w ≤ i + 1) (h2 : i < xs.length) :
    (windowAt xs w i).length = w := by
  simp only [windowAt, List.length_drop, List.length_take]
  omega

theorem windowAt_get? (xs : List ℝ) (w i t : Nat) (h1 : w ≤ i + 1) (h2 : i < xs.length)
    (ht : t < w) : (windowAt xs w i).get? t = xs.get? (i + 1 - w + t) := by
  rw [windowAt, List.get?_eq_getElem?, List.getElem?_drop,
    List.getElem?_take_of_lt (by omega), List.get?_eq_getElem?]

theorem list_sum_getD (l : List ℝ) : l.sum = ∑ j ∈ Finset.range l.length, l.getD j 0 := by
  induction l with
  | nil => simp
  | cons a t ih =>
    rw [List.sum_cons, List.length_cons, Finset.sum_range_succ']
    simp [ih, add_comm]

theorem windowAt_sum (xs : List ℝ) (w i : Nat) (h1 : w ≤ i + 1) (h2 : i < xs.length) :
    (windowAt xs w i).sum = ∑ j ∈ Finset.Icc (i + 1 - w) i, xs.getD j 0 := by
  rw [list_sum_getD, windowAt_length xs w i h1 h2, ← Nat.Ico_succ_right,
    Finset.sum_Ico_eq_sum_range]
  have hw : i + 1 - (i + 1 - w) = w := by omega
  rw [hw]
  refine Finset.sum_congr rfl fun t ht => ?_
  rw [List.getD_eq_getD_get?, List.getD_eq_getD_get?,
    windowAt_get? xs w i t h1 h2 (Finset.mem_range.mp ht)]

/-- C3: for every price series and window `0 < w ≤ N`, the rolling mean over
the adjusted-close column has exactly `N` entries, its first `w-1` entries are
the explicit undefined sentinel `none` (never a silent zero), and every entry
at index `i ≥ w-1` is the arithmetic mean of the values at indices `i-w+1`
through `i`. -/
theorem C3_rolling_mean (xs : List ℝ) (w : Nat) (hw : 0 < w) (hwN : w ≤ xs.length) :
    (rollingMean xs w).length = xs.length ∧
    (∀ i, i < w - 1 → (rollingMean xs w).get? i = some none) ∧
    (∀ i, w - 1 ≤ i → i < xs.length →
      (rollingMean xs w).get? i =
        some (some ((∑ j ∈ Finset.Icc (i + 1 - w) i, xs.getD j 0) / (w : ℝ)))) := by
  refine ⟨rollingMean_length xs w, fun i hi => ?_, fun i hi1 hi2 => ?_⟩
  · have hlt : i < xs.length := by omega
    rw [rollingMean_get? xs w i hlt, if_neg]
    omega
  · have hcond : 1 ≤ w ∧ w ≤ i + 1 := by omega
    rw [rollingMean_get? xs w i hi2, if_pos hcond, listMean,
      windowAt_sum xs w i hcond.2 hi2, windowAt_length xs w i hcond.2 hi2]

theorem C3_rolling_mean_witness :
    (rollingMean [(1 : ℝ), 2, 3] 2).length = 3 ∧
    (rollingMean [(1 : ℝ), 2, 3] 2).get? 0 = some none ∧
    (rollingMean [(1 : ℝ), 2, 3] 2).get? 1 =
      some (some ((∑ j ∈ Finset.Icc 0 1, ([(1 : ℝ), 2, 3]).getD j 0) / (2 : ℝ))) := by
  obtain ⟨h1, h2, h3⟩ := C3_rolling_mean [(1 : ℝ), 2, 3] 2 (by norm_num) (by norm_num)
  exact ⟨h1, h2 0 (by norm_num), h3 1 (by norm_num) (by norm_num)⟩

/-- Parameter record returned by `adjust_strategy_parameters`
(the dict with keys `bollinger_window`, `bollinger_std`, `sma_short`,
`sma_long`). -/
structure StrategyParams where
  bollinger_window : Nat
  bollinger_std : ℚ
  sma_short : Nat
  sma_long : Nat
deriving DecidableEq

/-- Models `adjust_strategy_parameters(style)` (`app1.py` lines 41-48,
identical in `new_app.py` and `app.py`): a pure chain of string comparisons
with an unconditional final fallback to the Moderate record. -/
def adjust_strategy_parameters (style : String) : StrategyParams :=
  if style = "Aggressive" then ⟨10, 3 / 2, 20, 50⟩
  else if style = "Moderate" then ⟨20, 2, 50, 200⟩
  else if style = "Passive" then ⟨30, 5 / 2, 100, 300⟩
  else ⟨20, 2, 50, 200⟩

/-- C7: style resolution is a pure lookup returning exactly the three
documented records (Aggressive ↦ {10, 1.5, 20, 50}, Moderate ↦
{20, 2, 50, 200}, Passive ↦ {30, 2.5, 100, 300}), and every unrecognized
name falls back to the Moderate record through the explicit final return. -/
theorem C7_style_lookup :
    adjust_strategy_parameters "Aggressive" = ⟨10, 3 / 2, 20, 50⟩ ∧
    adjust_strategy_parameters "Moderate" = ⟨20, 2, 50, 200⟩ ∧
    adjust_strategy_parameters "Passive" = ⟨30, 5 / 2, 100, 300⟩ ∧
    ∀ style, style ≠ "Aggressive" → style ≠ "Moderate" → style ≠ "Passive" →
      adjust_strategy_parameters style = adjust_strategy_parameters "Moderate" := by
  refine ⟨rfl, rfl, rfl, fun style h1 h2 h3 => ?_⟩
  simp [adjust_strategy_parameters, h1, h2, h3]

theorem C7_style_lookup_witness :
    adjust_strategy_parameters "Balanced" = adjust_strategy_parameters "Moderate" :=
  C7_style_lookup.2.2.2 "Balanced" (by decide) (by decide) (by decide)

/-- C10: style resolution is total (defined for every string, via the final
fallback) and every record it can return is well-formed: the short SMA window
is strictly below the long one, the band window is positive, and the band
standard-deviation multiplier is positive. -/
theorem C10_params_wellformed (style : String) :
    (adjust_strategy_parameters style).sma_short < (adjust_strategy_parameters style).sma_long ∧
    0 < (adjust_strategy_parameters style).bollinger_window ∧
    0 < (adjust_strategy_parameters style).bollinger_std := by
  unfold adjust_strategy_parameters
  split_ifs <;> exact ⟨by norm_num, by norm_num, by norm_num⟩

/-- Sample variance with `ddof = 1`, as pandas `Series.std()` squares:
`Σ (x - mean)² / (n - 1)`. -/
noncomputable def sampleVar (l : List ℝ) : ℝ :=
  ((l.map fun x => (x - listMean l) ^ 2).sum) / ((l.length : ℝ) - 1)

/-- Models `series.rolling(window=w).std()` (`app1.py` line 10): pandas uses the
sample standard deviation (`ddof = 1`), so an entry is NaN until `i ≥ w-1` and
also for `w = 1` (division `0/0`), and `sqrt` of the sample variance of the
trailing window afterwards. -/
noncomputable def rollingStd (xs : List ℝ) (w : Nat) : List (Option ℝ) :=
  (List.range xs.length).map fun i =>
    if 2 ≤ w ∧ w ≤ i + 1 then some (Real.sqrt (sampleVar (windowAt xs w i))) else none

theorem rollingStd_get? (xs : List ℝ) (w i : Nat) (hi : i < xs.length) :
    (rollingStd xs w).get? i =
      some (if 2 ≤ w ∧ w ≤ i + 1 then some (Real.sqrt (sampleVar (windowAt xs w i)))
        else none) := by
  rw [rollingStd, List.get?_eq_getElem?, List.getElem?_map, List.getElem?_range hi]
  rfl

theorem rollingStd_length (xs : List ℝ) (w : Nat) : (rollingStd xs w).length = xs.length := by
  simp [rollingStd]

/-- Models `data['Upper Band'] = data['SMA'] + no_of_std * data['STD']`
(`app1.py` line 11), pointwise with NaN propagation. -/
noncomputable def upperBandOf (sma stdc : List (Option ℝ)) (no_of_std : ℝ) :
    List (Option ℝ) :=
  List.zipWith (fun m s => m.bind fun m0 => s.map fun s0 => m0 + no_of_std * s0) sma stdc

/-- Models `data['Lower Band'] = data['SMA'] - no_of_std * data['STD']`
(`app1.py` line 12), pointwise with NaN propagation. -/
noncomputable def lowerBandOf (sma stdc : List (Option ℝ)) (no_of_std : ℝ) :
    List (Option ℝ) :=
  List.zipWith (fun m s => m.bind fun m0 => s.map fun s0 => m0 - no_of_std * s0) sma stdc

/-- One entry of the Bollinger `Signal` column (`app1.py` lines 25-27): the
column starts at 0, is set to 1 where `Adj Close < Lower Band` and then to -1
where `Adj Close > Upper Band` (the later assignment wins on overlap); a
comparison against NaN (`none`) is false. -/
noncomputable def bollSignalAt (c : ℝ) (lo hi : Option ℝ) : Int :=
  match lo, hi with
  | some l0, some h0 => if h0 < c then -1 else if c < l0 then 1 else 0
  | some l0, none => if c < l0 then 1 else 0
  | none, some h0 => if h0 < c then -1 else 0
  | none, none => 0

/-- The Bollinger `Signal` column, aligned to the adjusted-close column. -/
noncomputable def bollSignals (close : List ℝ) (lower upper : List (Option ℝ)) : List Int :=
  List.zipWith (fun c p => bollSignalAt c p.1 p.2) close (lower.zip upper)

/-- One entry of the SMA-crossover `Signal` column (`app1.py` lines 33-35):
0 by default, 1 where `SMA_Short > SMA_Long`, -1 where `SMA_Short < SMA_Long`;
comparisons against NaN are false. -/
noncomputable def smaSignalAt (s l : Option ℝ) : Int :=
  match s, l with
  | some s0, some l0 => if s0 < l0 then -1 else if l0 < s0 then 1 else 0
  | _, _ => 0

/-- The SMA-crossover `Signal` column. -/
noncomputable def smaSignals (shortc longc : List (Option ℝ)) : List Int :=
  List.zipWith smaSignalAt shortc longc

/-- A pandas DataFrame of the pipeline, as a record of columns.  The five
price columns are always present (loaded by the I/O layer); every derived
column is `none` until the corresponding assignment `data[c] = ...` has run.
The row index (dates) plays no role in the computations and is omitted. -/
structure DataFrame where
  openCol : List ℝ := []
  highCol : List ℝ := []
  lowCol : List ℝ := []
  closeCol : List ℝ := []
  adjClose : List ℝ
  sma : Option (List (Option ℝ)) := none
  stdCol : Option (List (Option ℝ)) := none
  upperBand : Option (List (Option ℝ)) := none
  lowerBand : Option (List (Option ℝ)) := none
  smaShort : Option (List (Option ℝ)) := none
  smaLong : Option (List (Option ℝ)) := none
  signal : Option (List Int) := none
  returns : Option (List (Option ℝ)) := none
  position : Option (List Int) := none
  strategyReturns : Option (List (Option ℝ)) := none
  cumulative : Option (List (Option ℝ)) := none
  capital : Option (List (Option ℝ)) := none

/-- Models `calculate_bollinger_bands(data, window, no_of_std)` (`app1.py`
lines 8-13): writes the SMA, STD and band columns into the caller's frame
and returns that same frame. -/
noncomputable def calculate_bollinger_bands (data : DataFrame) (window : Nat)
    (no_of_std : ℝ) : DataFrame :=
  let s := rollingMean data.adjClose window
  let d := rollingStd data.adjClose window
  { data with
    sma := some s
    stdCol := some d
    upperBand := some (upperBandOf s d no_of_std)
    lowerBand := some (lowerBandOf s d no_of_std) }

/-- Models `calculate_sma(data, short_window, long_window)` (`app1.py`
lines 17-20): writes the two moving-average columns into the caller's frame
and returns that same frame.  No parameter validation is performed. -/
noncomputable def calculate_sma (data : DataFrame) (short_window long_window : Nat) :
    DataFrame :=
  { data with
    smaShort := some (rollingMean data.adjClose short_window)
    smaLong := some (rollingMean data.adjClose long_window) }

/-- Models `apply_bollinger_strategy(data)` (`app1.py` lines 24-28).  The
source indexes the band columns directly (a missing column would raise
`KeyError`); the modeled pipeline always provides them, and a missing column
defaults to the empty column here. -/
noncomputable def apply_bollinger_strategy (data : DataFrame) : DataFrame :=
  { data with signal := some (bollSignals data.adjClose
      (data.lowerBand.getD []) (data.upperBand.getD [])) }

/-- Models `apply_sma_strategy(data)` (`app1.py` lines 32-36). -/
noncomputable def apply_sma_strategy (data : DataFrame) : DataFrame :=
  { data with signal := some (smaSignals (data.smaShort.getD []) (data.smaLong.getD [])) }

/-- C6 counterexample: with `short_window = 3 ≥ long_window = 2` the code does
not fail with `InvalidParameter`; `calculate_sma` returns a frame whose
moving-average columns are fully populated — the long column even holds the
defined mean `3/2` at index 1. -/
theorem C6_counterexample :
    (calculate_sma { adjClose := [(1 : ℝ), 2, 3] } 3 2).smaShort.isSome = true ∧
    ((calculate_sma { adjClose := [(1 : ℝ), 2, 3] } 3 2).smaLong.getD []).get? 1 =
      some (some ((3 : ℝ) / 2)) := by
  refine ⟨rfl, ?_⟩
  show (rollingMean [(1 : ℝ), 2, 3] 2).get? 1 = some (some ((3 : ℝ) / 2))
  rw [rollingMean_get? _ 2 1 (by norm_num), if_pos (by omega)]
  norm_num [listMean, windowAt]

/-- C6 amended: the indicator computations perform no parameter validation:
`calculate_sma` accepts `short_window ≥ long_window` and still produces both
moving-average columns, aligned to the input length, instead of failing with
`InvalidParameter`. -/
theorem C6_amended (data : DataFrame) (short_window long_window : Nat)
    (h : long_window ≤ short_window) :
    (calculate_sma data short_window long_window).smaShort =
      some (rollingMean data.adjClose short_window) ∧
    (calculate_sma data short_window long_window).smaLong =
      some (rollingMean data.adjClose long_window) ∧
    (rollingMean data.adjClose short_window).length = data.adjClose.length ∧
    (rollingMean data.adjClose long_window).length = data.adjClose.length :=
  ⟨rfl, rfl, rollingMean_length _ _, rollingMean_length _ _⟩

theorem C6_amended_witness :
    (calculate_sma { adjClose := [(1 : ℝ), 2, 3] } 3 2).smaLong =
      some (rollingMean [(1 : ℝ), 2, 3] 2) :=
  (C6_amended { adjClose := [(1 : ℝ), 2, 3] } 3 2 (by norm_num)).2.1

/-- C8 counterexample: `calculate_bollinger_bands` does not leave the caller's
frame unchanged — it writes the SMA/STD/band columns into it, so the frame
after the call differs from the frame before (and the returned value is that
same updated frame, not a fresh one). -/
theorem C8_counterexample :
    calculate_bollinger_bands { adjClose := [(1 : ℝ), 2] } 2 2 ≠
      { adjClose := [(1 : ℝ), 2] } := by
  intro h
  have h2 := congrArg DataFrame.sma h
  simp [calculate_bollinger_bands] at h2

theorem get?_some_of_lt {α : Type} (l : List α) (d : α) (i : Nat) (hi : i < l.length) :
    l.get? i = some (l.getD i d) := by
  cases h : l.get? i with
  | none =>
    have := List.get?_eq_none.mp h
    omega
  | some v =>
    rw [List.getD_eq_getD_get?, h]
    rfl

theorem lt_length_of_get?_some {α : Type} {l : List α} {i : Nat} {a : α}
    (h : l.get? i = some a) : i < l.length := by
  by_contra hlt
  rw [List.get?_eq_none.mpr (by omega)] at h
  cases h

theorem bollSignals_get? (close : List ℝ) (lower upper : List (Option ℝ)) (i : Nat)
    (h1 : i < close.length) (h2 : i < lower.length) (h3 : i < upper.length) :
    (bollSignals close lower upper).get? i =
      some (bollSignalAt (close.getD i 0) (lower.getD i none) (upper.getD i none)) := by
  have hz : (lower.zip upper).get? i = some (lower.getD i none, upper.getD i none) :=
    (List.get?_zip_eq_some _ _ _ _).mpr
      ⟨get?_some_of_lt lower none i h2, get?_some_of_lt upper none i h3⟩
  rw [bollSignals, List.get?_zipWith', get?_some_of_lt close 0 i h1, hz]
  rfl

theorem smaSignals_get? (shortc longc : List (Option ℝ)) (i : Nat)
    (h1 : i < shortc.length) (h2 : i < longc.length) :
    (smaSignals shortc longc).get? i =
      some (smaSignalAt (shortc.getD i none) (longc.getD i none)) := by
  rw [smaSignals, List.get?_zipWith', get?_some_of_lt shortc none i h1,
    get?_some_of_lt longc none i h2]
  rfl

theorem upperBandOf_get? (sma stdc : List (Option ℝ)) (k : ℝ) (i : Nat)
    (h1 : i < sma.length) (h2 : i < stdc.length) :
    (upperBandOf sma stdc k).get? i =
      some ((sma.getD i none).bind fun m0 => (stdc.getD i none).map fun s0 => m0 + k * s0) := by
  rw [upperBandOf, List.get?_zipWith', get?_some_of_lt sma none i h1,
    get?_some_of_lt stdc none i h2]
  rfl

theorem lowerBandOf_get? (sma stdc : List (Option ℝ)) (k : ℝ) (i : Nat)
    (h1 : i < sma.length) (h2 : i < stdc.length) :
    (lowerBandOf sma stdc k).get? i =
      some ((sma.getD i none).bind fun m0 => (stdc.getD i none).map fun s0 => m0 - k * s0) := by
  rw [lowerBandOf, List.get?_zipWith', get?_some_of_lt sma none i h1,
    get?_some_of_lt stdc none i h2]
  rfl

theorem bollSignalAt_cases (c : ℝ) (lo hi : Option ℝ) :
    bollSignalAt c lo hi = -1 ∨ bollSignalAt c lo hi = 0 ∨ bollSignalAt c lo hi = 1 := by
  rcases lo with _ | l0 <;> rcases hi with _ | h0
  · simp [bollSignalAt]
  · simp only [bollSignalAt]
    split_ifs <;> simp
  · simp only [bollSignalAt]
    split_ifs <;> simp
  · simp only [bollSignalAt]
    split_ifs <;> simp

theorem smaSignalAt_cases (s l : Option ℝ) :
    smaSignalAt s l = -1 ∨ smaSignalAt s l = 0 ∨ smaSignalAt s l = 1 := by
  rcases s with _ | s0 <;> rcases l with _ | l0
  · simp [smaSignalAt]
  · simp [smaSignalAt]
  · simp [smaSignalAt]
  · simp only [smaSignalAt]
    split_ifs <;> simp

theorem rollingStd_entry_nonneg (xs : List ℝ) (w i : Nat) (s0 : ℝ)
    (h : (rollingStd xs w).get? i = some (some s0)) : 0 ≤ s0 := by
  have hi : i < xs.length := by
    have := lt_length_of_get?_some h
    rwa [rollingStd_length] at this
  rw [rollingStd_get? xs w i hi, Option.some.injEq] at h
  split_ifs at h with hc
  have hv := Option.some.inj h
  exact hv ▸ Real.sqrt_nonneg _

/-- The Bollinger pipeline as run by `main` (`app1.py` lines 149-150):
`calculate_bollinger_bands` followed by `apply_bollinger_strategy`, projected
to the resulting `Signal` column. -/
noncomputable def bollingerSignalColumn (data : DataFrame) (w : Nat) (k : ℝ) : List Int :=
  (apply_bollinger_strategy (calculate_bollinger_bands data w k)).signal.getD []

/-- The SMA-crossover pipeline as run by `main` (`app1.py` lines 152-153):
`calculate_sma` followed by `apply_sma_strategy`, projected to the resulting
`Signal` column. -/
noncomputable def smaSignalColumn (data : DataFrame) (sw lw : Nat) : List Int :=
  (apply_sma_strategy (calculate_sma data sw lw)).signal.getD []

theorem bollingerSignalColumn_eq (data : DataFrame) (w : Nat) (k : ℝ) :
    bollingerSignalColumn data w k = bollSignals data.adjClose
      (lowerBandOf (rollingMean data.adjClose w) (rollingStd data.adjClose w) k)
      (upperBandOf (rollingMean data.adjClose w) (rollingStd data.adjClose w) k) := rfl

theorem smaSignalColumn_eq (data : DataFrame) (sw lw : Nat) :
    smaSignalColumn data sw lw =
      smaSignals (rollingMean data.adjClose sw) (rollingMean data.adjClose lw) := rfl

theorem calc_boll_upperBand (data : DataFrame) (w : Nat) (k : ℝ) :
    (calculate_bollinger_bands data w k).upperBand =
      some (upperBandOf (rollingMean data.adjClose w) (rollingStd data.adjClose w) k) := rfl

theorem calc_boll_lowerBand (data : DataFrame) (w : Nat) (k : ℝ) :
    (calculate_bollinger_bands data w k).lowerBand =
      some (lowerBandOf (rollingMean data.adjClose w) (rollingStd data.adjClose w) k) := rfl

theorem calc_sma_smaShort (data : DataFrame) (sw lw : Nat) :
    (calculate_sma data sw lw).smaShort = some (rollingMean data.adjClose sw) := rfl

theorem calc_sma_smaLong (data : DataFrame) (sw lw : Nat) :
    (calculate_sma data sw lw).smaLong = some (rollingMean data.adjClose lw) := rfl

theorem upperBandOf_length (sma stdc : List (Option ℝ)) (k : ℝ) :
    (upperBandOf sma stdc k).length = min sma.length stdc.length :=
  List.length_zipWith _ _ _

theorem lowerBandOf_length (sma stdc : List (Option ℝ)) (k : ℝ) :
    (lowerBandOf sma stdc k).length = min sma.length stdc.length :=
  List.length_zipWith _ _ _

theorem upperBandOf_getD (sma stdc : List (Option ℝ)) (k : ℝ) (i : Nat)
    (h1 : i < sma.length) (h2 : i < stdc.length) :
    (upperBandOf sma stdc k).getD i none =
      (sma.getD i none).bind fun m0 => (stdc.getD i none).map fun s0 => m0 + k * s0 := by
  have ha := get?_some_of_lt (upperBandOf sma stdc k) none i
    (by rw [upperBandOf_length]; omega)
  rw [upperBandOf_get? sma stdc k i h1 h2] at ha
  exact (Option.some.inj ha).symm

theorem lowerBandOf_getD (sma stdc : List (Option ℝ)) (k : ℝ) (i : Nat)
    (h1 : i < sma.length) (h2 : i < stdc.length) :
    (lowerBandOf sma stdc k).getD i none =
      (sma.getD i none).bind fun m0 => (stdc.getD i none).map fun s0 => m0 - k * s0 := by
  have ha := get?_some_of_lt (lowerBandOf sma stdc k) none i
    (by rw [lowerBandOf_length]; omega)
  rw [lowerBandOf_get? sma stdc k i h1 h2] at ha
  exact (Option.some.inj ha).symm

theorem bollSignals_mem (close : List ℝ) (lower upper : List (Option ℝ)) (i : Nat) (x : Int)
    (h : (bollSignals close lower upper).get? i = some x) : x = -1 ∨ x = 0 ∨ x = 1 := by
  have hi := lt_length_of_get?_some h
  simp only [bollSignals, List.length_zipWith, List.length_zip, lt_min_iff] at hi
  rw [bollSignals_get? close lower upper i hi.1 hi.2.1 hi.2.2] at h
  have hx := Option.some.inj h
  exact hx ▸ bollSignalAt_cases _ _ _

theorem smaSignals_mem (shortc longc : List (Option ℝ)) (i : Nat) (x : Int)
    (h : (smaSignals shortc longc).get? i = some x) : x = -1 ∨ x = 0 ∨ x = 1 := by
  have hi := lt_length_of_get?_some h
  simp only [smaSignals, List.length_zipWith, lt_min_iff] at hi
  rw [smaSignals_get? shortc longc i hi.1 hi.2] at h
  have hx := Option.some.inj h
  exact hx ▸ smaSignalAt_cases _ _

/-- C4: for every price series and both strategy variants, every generated
signal value lies in {-1, 0, 1}; the equality cases — close exactly equal to
a band bound, or short MA exactly equal to long MA — yield 0; and wherever
the underlying indicator at index `i` is undefined (NaN), the signal at `i`
is 0.  The band-equality cases assume the program's nonnegative standard
deviation multiplier (the style table only supplies 1.5, 2 or 2.5). -/
theorem C4_signal_properties (data : DataFrame) (w sw lw : Nat) (k : ℝ) (hk : 0 ≤ k) :
    (∀ i x, (bollingerSignalColumn data w k).get? i = some x →
      x = -1 ∨ x = 0 ∨ x = 1) ∧
    (∀ i x, (smaSignalColumn data sw lw).get? i = some x →
      x = -1 ∨ x = 0 ∨ x = 1) ∧
    (∀ i, i < data.adjClose.length →
      ((calculate_bollinger_bands data w k).upperBand.getD []).get? i =
        some (some (data.adjClose.getD i 0)) →
      (bollingerSignalColumn data w k).get? i = some 0) ∧
    (∀ i, i < data.adjClose.length →
      ((calculate_bollinger_bands data w k).lowerBand.getD []).get? i =
        some (some (data.adjClose.getD i 0)) →
      (bollingerSignalColumn data w k).get? i = some 0) ∧
    (∀ i v, ((calculate_sma data sw lw).smaShort.getD []).get? i = some (some v) →
      ((calculate_sma data sw lw).smaLong.getD []).get? i = some (some v) →
      (smaSignalColumn data sw lw).get? i = some 0) ∧
    (∀ i, ((calculate_bollinger_bands data w k).upperBand.getD []).get? i = some none →
      (bollingerSignalColumn data w k).get? i = some 0) ∧
    (∀ i, ((calculate_sma data sw lw).smaShort.getD []).get? i = some none ∨
        ((calculate_sma data sw lw).smaLong.getD []).get? i = some none →
      (smaSignalColumn data sw lw).get? i = some 0) := by
  simp only [calc_boll_upperBand, calc_boll_lowerBand, calc_sma_smaShort, calc_sma_smaLong,
    Option.getD_some, bollingerSignalColumn_eq, smaSignalColumn_eq]
  have hsm : (rollingMean data.adjClose w).length = data.adjClose.length :=
    rollingMean_length _ _
  have hsd : (rollingStd data.adjClose w).length = data.adjClose.length :=
    rollingStd_length _ _
  have hss : (rollingMean data.adjClose sw).length = data.adjClose.length :=
    rollingMean_length _ _
  have hsl : (rollingMean data.adjClose lw).length = data.adjClose.length :=
    rollingMean_length _ _
  refine ⟨fun i x h => bollSignals_mem _ _ _ i x h,
    fun i x h => smaSignals_mem _ _ i x h, fun i hip hU => ?_, fun i hip hL => ?_,
    fun i v hS hL => ?_, fun i hU => ?_, fun i hor => ?_⟩
  · -- close equal to the upper band
    have hUD : (upperBandOf (rollingMean data.adjClose w) (rollingStd data.adjClose w)
        k).getD i none = some (data.adjClose.getD i 0) :=
      Option.some.inj ((get?_some_of_lt _ none i
        (by rw [upperBandOf_length]; omega)).symm.trans hU)
    rw [upperBandOf_getD _ _ k i (by omega) (by omega)] at hUD
    cases hm : (rollingMean data.adjClose w).getD i none with
    | none => rw [hm] at hUD; cases hUD
    | some m0 =>
      cases hs : (rollingStd data.adjClose w).getD i none with
      | none => rw [hm, hs] at hUD; cases hUD
      | some s0 =>
        rw [hm, hs] at hUD
        have hval : m0 + k * s0 = data.adjClose.getD i 0 := Option.some.inj hUD
        have hs0 : 0 ≤ s0 := rollingStd_entry_nonneg data.adjClose w i s0
          (by rw [get?_some_of_lt _ none i (by omega), hs])
        have hks : 0 ≤ k * s0 := mul_nonneg hk hs0
        have hLD : (lowerBandOf (rollingMean data.adjClose w) (rollingStd data.adjClose w)
            k).getD i none = some (m0 - k * s0) := by
          rw [lowerBandOf_getD _ _ k i (by omega) (by omega), hm, hs]
          rfl
        rw [bollSignals_get? _ _ _ i hip (by rw [lowerBandOf_length]; omega)
          (by rw [upperBandOf_length]; omega), hLD]
        have hUD2 : (upperBandOf (rollingMean data.adjClose w) (rollingStd data.adjClose w)
            k).getD i none = some (data.adjClose.getD i 0) :=
          Option.some.inj ((get?_some_of_lt _ none i
            (by rw [upperBandOf_length]; omega)).symm.trans hU)
        rw [hUD2]
        simp only [bollSignalAt]
        rw [if_neg (lt_irrefl _), if_neg (by rw [not_lt]; linarith)]
  · -- close equal to the lower band
    have hLD : (lowerBandOf (rollingMean data.adjClose w) (rollingStd data.adjClose w)
        k).getD i none = some (data.adjClose.getD i 0) :=
      Option.some.inj ((get?_some_of_lt _ none i
        (by rw [lowerBandOf_length]; omega)).symm.trans hL)
    have hLD' := hLD
    rw [lowerBandOf_getD _ _ k i (by omega) (by omega)] at hLD
    cases hm : (rollingMean data.adjClose w).getD i none with
    | none => rw [hm] at hLD; cases hLD
    | some m0 =>
      cases hs : (rollingStd data.adjClose w).getD i none with
      | none => rw [hm, hs] at hLD; cases hLD
      | some s0 =>
        rw [hm, hs] at hLD
        have hval : m0 - k * s0 = data.adjClose.getD i 0 := Option.some.inj hLD
        have hs0 : 0 ≤ s0 := rollingStd_entry_nonneg data.adjClose w i s0
          (by rw [get?_some_of_lt _ none i (by omega), hs])
        have hks : 0 ≤ k * s0 := mul_nonneg hk hs0
        have hUD : (upperBandOf (rollingMean data.adjClose w) (rollingStd data.adjClose w)
            k).getD i none = some (m0 + k * s0) := by
          rw [upperBandOf_getD _ _ k i (by omega) (by omega), hm, hs]
          rfl
        rw [bollSignals_get? _ _ _ i hip (by rw [lowerBandOf_length]; omega)
          (by rw [upperBandOf_length]; omega), hLD', hUD]
        simp only [bollSignalAt]
        rw [if_neg (by rw [not_lt]; linarith), if_neg (by rw [not_lt])]
  · -- short MA exactly equal to long MA
    have hiS : i < (rollingMean data.adjClose sw).length := lt_length_of_get?_some hS
    have hiL : i < (rollingMean data.adjClose lw).length := lt_length_of_get?_some hL
    have hSD : (rollingMean data.adjClose sw).getD i none = some v :=
      Option.some.inj ((get?_some_of_lt _ none i hiS).symm.trans hS)
    have hLD : (rollingMean data.adjClose lw).getD i none = some v :=
      Option.some.inj ((get?_some_of_lt _ none i hiL).symm.trans hL)
    rw [smaSignals_get? _ _ i hiS hiL, hSD, hLD]
    simp [smaSignalAt]
  · -- undefined upper band entry
    have hiu : i < (upperBandOf (rollingMean data.adjClose w)
        (rollingStd data.adjClose w) k).length := lt_length_of_get?_some hU
    rw [upperBandOf_length] at hiu
    have hip : i < data.adjClose.length := by omega
    have hUD : (upperBandOf (rollingMean data.adjClose w) (rollingStd data.adjClose w)
        k).getD i none = none :=
      Option.some.inj ((get?_some_of_lt _ none i
        (by rw [upperBandOf_length]; omega)).symm.trans hU)
    have hUD' := hUD
    rw [upperBandOf_getD _ _ k i (by omega) (by omega)] at hUD
    have hnone : (rollingMean data.adjClose w).getD i none = none ∨
        (rollingStd data.adjClose w).getD i none = none := by
      cases hm : (rollingMean data.adjClose w).getD i none with
      | none => exact Or.inl rfl
      | some m0 =>
        cases hs : (rollingStd data.adjClose w).getD i none with
        | none => exact Or.inr rfl
        | some s0 => rw [hm, hs] at hUD; cases hUD
    have hLD : (lowerBandOf (rollingMean data.adjClose w) (rollingStd data.adjClose w)
        k).getD i none = none := by
      rw [lowerBandOf_getD _ _ k i (by omega) (by omega)]
      rcases hnone with hm | hs
      · rw [hm]
        rfl
      · rw [hs]
        cases (rollingMean data.adjClose w).getD i none <;> rfl
    rw [bollSignals_get? _ _ _ i hip (by rw [lowerBandOf_length]; omega)
      (by rw [upperBandOf_length]; omega), hLD, hUD']
    rfl
  · -- undefined short or long MA entry
    rcases hor with hS | hL
    · have hiS : i < (rollingMean data.adjClose sw).length := lt_length_of_get?_some hS
      have hSD : (rollingMean data.adjClose sw).getD i none = none :=
        Option.some.inj ((get?_some_of_lt _ none i hiS).symm.trans hS)
      rw [smaSignals_get? _ _ i hiS (by omega), hSD]
      rfl
    · have hiL : i < (rollingMean data.adjClose lw).length := lt_length_of_get?_some hL
      have hLD : (rollingMean data.adjClose lw).getD i none = none :=
        Option.some.inj ((get?_some_of_lt _ none i hiL).symm.trans hL)
      rw [smaSignals_get? _ _ i (by omega) hiL, hLD]
      cases (rollingMean data.adjClose sw).getD i none <;> rfl

theorem C4_signal_properties_witness :
    (bollingerSignalColumn { adjClose := [(100 : ℝ), 100] } 2 2).get? 1 = some 0 ∧
    (bollingerSignalColumn { adjClose := [(100 : ℝ), 100] } 2 2).get? 0 = some 0 ∧
    (smaSignalColumn { adjClose := [(100 : ℝ), 100] } 2 2).get? 1 = some 0 := by
  have hmlit : listMean [(100 : ℝ), 100] = 100 := by norm_num [listMean]
  have hmean1 : (rollingMean [(100 : ℝ), 100] 2).getD 1 none = some 100 := by
    rw [List.getD_eq_getD_get?, rollingMean_get? _ 2 1 (by norm_num)]
    simp only [Option.getD_some]
    rw [if_pos (show 1 ≤ 2 ∧ 2 ≤ 1 + 1 from by omega)]
    have hwin : windowAt [(100 : ℝ), 100] 2 1 = [100, 100] := rfl
    rw [hwin, hmlit]
  have hstd1 : (rollingStd [(100 : ℝ), 100] 2).getD 1 none = some 0 := by
    rw [List.getD_eq_getD_get?, rollingStd_get? _ 2 1 (by norm_num)]
    simp only [Option.getD_some]
    rw [if_pos (show 2 ≤ 2 ∧ 2 ≤ 1 + 1 from by omega)]
    have hwin : windowAt [(100 : ℝ), 100] 2 1 = [100, 100] := rfl
    have hv : sampleVar [(100 : ℝ), 100] = 0 := by norm_num [sampleVar, hmlit]
    rw [hwin, hv, Real.sqrt_zero]
  have hup1 : (upperBandOf (rollingMean [(100 : ℝ), 100] 2)
      (rollingStd [(100 : ℝ), 100] 2) 2).get? 1 = some (some 100) := by
    rw [upperBandOf_get? _ _ 2 1 (by rw [rollingMean_length]; norm_num)
      (by rw [rollingStd_length]; norm_num), hmean1, hstd1]
    norm_num
  have hmean0 : (rollingMean [(100 : ℝ), 100] 2).getD 0 none = none := by
    rw [List.getD_eq_getD_get?, rollingMean_get? _ 2 0 (by norm_num)]
    simp only [Option.getD_some]
    rw [if_neg (by omega)]
  have hup0 : (upperBandOf (rollingMean [(100 : ℝ), 100] 2)
      (rollingStd [(100 : ℝ), 100] 2) 2).get? 0 = some none := by
    rw [upperBandOf_get? _ _ 2 0 (by rw [rollingMean_length]; norm_num)
      (by rw [rollingStd_length]; norm_num), hmean0]
    rfl
  have hsma1 : (rollingMean [(100 : ℝ), 100] 2).get? 1 = some (some 100) := by
    rw [rollingMean_get? _ 2 1 (by norm_num)]
    rw [if_pos (show 1 ≤ 2 ∧ 2 ≤ 1 + 1 from by omega)]
    have hwin : windowAt [(100 : ℝ), 100] 2 1 = [100, 100] := rfl
    rw [hwin, hmlit]
  obtain ⟨p1, p2, p3, p4, p5, p6, p7⟩ :=
    C4_signal_properties { adjClose := [(100 : ℝ), 100] } 2 2 2 2 (by norm_num)
  exact ⟨p3 1 (by norm_num) hup1, p6 0 hup0, p5 1 100 hsma1 hsma1⟩

/-- Models `series.shift(1)` on the price column: the previous row's value,
NaN at index 0. -/
def shiftOpt (xs : List ℝ) : List (Option ℝ) := none :: xs.dropLast.map some

/-- Models `data['Returns'] = np.log(data['Adj Close'] / data['Adj Close'].shift(1))`
(`app1.py` line 54): NaN at index 0, `ln(p[i] / p[i-1])` afterwards. -/
noncomputable def returnsOf (adjClose : List ℝ) : List (Option ℝ) :=
  List.zipWith (fun p q => q.map fun q0 => Real.log (p / q0)) adjClose (shiftOpt adjClose)

/-- Models `data['Position'] = data['Signal'].shift(1).fillna(0)` (`app1.py`
line 55): the previous row's signal, with the index-0 NaN replaced by 0. -/
def shiftSignal (sig : List Int) : List Int := 0 :: sig.dropLast

/-- Models `data['Strategy_Returns'] = data['Position'] * data['Returns']`
(`app1.py` line 56), pointwise with NaN propagation (`0 * NaN` is NaN). -/
noncomputable def strategyReturnsOf (position : List Int) (returns : List (Option ℝ)) :
    List (Option ℝ) :=
  List.zipWith (fun s r => r.map fun r0 => (s : ℝ) * r0) position returns

/-- Models `series + 1` on a NaN-able column. -/
noncomputable def addOne (xs : List (Option ℝ)) : List (Option ℝ) :=
  xs.map (Option.map (· + 1))

/-- Models pandas `Series.cumprod()` with its default `skipna=True`: a NaN
entry stays NaN in the output and is skipped (contributes factor 1) in the
running product feeding the later entries. -/
noncomputable def cumprodAux (acc : ℝ) : List (Option ℝ) → List (Option ℝ)
  | [] => []
  | none :: rest => none :: cumprodAux acc rest
  | some x :: rest => some (acc * x) :: cumprodAux (acc * x) rest

/-- `data['Cumulative_Strategy_Returns'] = (data['Strategy_Returns'] + 1).cumprod()`
(`app1.py` line 57) uses the running product starting at 1. -/
noncomputable def cumprod (xs : List (Option ℝ)) : List (Option ℝ) := cumprodAux 1 xs

/-- Models `data['Capital'] = initial_capital * data['Cumulative_Strategy_Returns']`
(`app1.py` line 58). -/
noncomputable def capitalOf (initial_capital : ℝ) (cum : List (Option ℝ)) :
    List (Option ℝ) :=
  cum.map (Option.map fun c => initial_capital * c)

/-- Result of `visualize_interactive`: the caller's frame with the five
simulation columns written in, plus the two reported metrics (NaN as `none`). -/
structure SimulationOutput where
  df : DataFrame
  final_capital : Option ℝ
  cumulative_roi : Option ℝ

/-- Models the computational part of `visualize_interactive(data, strategy_name,
initial_capital)` (`app1.py` lines 53-61): the five derived columns, the final
capital `data['Capital'].iloc[-1]` and the cumulative ROI
`(final_capital - initial_capital) / initial_capital * 100`.  The plotting and
`st.write` calls are presentation-only and not modeled.  The source indexes
`data['Signal']` directly (`KeyError` if absent); a missing column defaults to
the empty column here. -/
noncomputable def visualize_interactive (data : DataFrame) (initial_capital : ℝ) :
    SimulationOutput :=
  let rets := returnsOf data.adjClose
  let pos := shiftSignal (data.signal.getD [])
  let sr := strategyReturnsOf pos rets
  let cum := cumprod (addOne sr)
  let cap := capitalOf initial_capital cum
  let fc := cap.getLastD none
  let roi := fc.map fun f => (f - initial_capital) / initial_capital * 100
  ⟨{ data with
      returns := some rets
      position := some pos
      strategyReturns := some sr
      cumulative := some cum
      capital := some cap }, fc, roi⟩

/-- The price columns of `after` agree with those of `before`. -/
def pricePreserved (after before : DataFrame) : Prop :=
  after.openCol = before.openCol ∧ after.highCol = before.highCol ∧
  after.lowCol = before.lowCol ∧ after.closeCol = before.closeCol ∧
  after.adjClose = before.adjClose

/-- C8 amended: each pipeline stage preserves the price columns of the
caller's frame, but — contrary to the claim — it writes its derived columns
into that same frame and returns it: the output aliases the input instead of
being a fresh value, as the counterexample records. -/
theorem C8_price_columns_preserved (data : DataFrame) (w sw lw : Nat) (k ic : ℝ) :
    pricePreserved (calculate_bollinger_bands data w k) data ∧
    pricePreserved (calculate_sma data sw lw) data ∧
    pricePreserved (apply_bollinger_strategy data) data ∧
    pricePreserved (apply_sma_strategy data) data ∧
    pricePreserved (visualize_interactive data ic).df data :=
  ⟨⟨rfl, rfl, rfl, rfl, rfl⟩, ⟨rfl, rfl, rfl, rfl, rfl⟩, ⟨rfl, rfl, rfl, rfl, rfl⟩,
    ⟨rfl, rfl, rfl, rfl, rfl⟩, ⟨rfl, rfl, rfl, rfl, rfl⟩⟩

/-- Models `main`'s guard plus the simulation call (`app1.py` lines 140-142
and 157): `main` rejects the frame only when it is empty after date filtering
(`if data.empty: st.error(...); return`) and otherwise runs
`visualize_interactive` unconditionally; there is no bar-count or
initial-capital validation anywhere in the program. -/
noncomputable def main_pipeline (data : DataFrame) (initial_capital : ℝ) :
    Option SimulationOutput :=
  if data.adjClose.isEmpty then none
  else some (visualize_interactive data initial_capital)

/-- C5 counterexample: a one-bar series (fewer than 2 bars) together with a
negative initial capital is accepted — the pipeline returns a result instead
of failing with `EmptySeries` or `InvalidCapital`. -/
theorem C5_counterexample :
    (main_pipeline { adjClose := [(100 : ℝ)], signal := some [0] } (-5)).isSome = true := rfl

/-- C5 amended: the only rejection in the pipeline is `main`'s empty-frame
guard: the simulation produces no result exactly when the price series is
empty (0 bars); a 1-bar series passes the guard and yields a degenerate
all-NaN capital trajectory, and a non-positive initial capital is accepted
without any validation. -/
theorem C5_empty_guard (data : DataFrame) (initial_capital : ℝ) :
    main_pipeline data initial_capital = none ↔ data.adjClose = [] := by
  by_cases h : data.adjClose = []
  · simp [main_pipeline, h]
  · simp [main_pipeline, h]

/-- C2 counterexample: with prices `[100, 101]`, signals `[0, 0]` and initial
capital 1000, the first capital entry is the NaN sentinel `none`, not the
initial capital: `Strategy_Returns[0] = 0 * NaN` is NaN, and pandas `cumprod`
leaves the index-0 NaN in place — it only skips it in later products. -/
theorem C2_counterexample :
    ((visualize_interactive { adjClose := [(100 : ℝ), 101], signal := some [0, 0] }
        1000).df.capital.getD []).get? 0 = some none ∧
    (some none : Option (Option ℝ)) ≠ some (some (1000 : ℝ)) := by
  exact ⟨rfl, by simp⟩

/-- C2 amended: for every series with at least 2 bars and positive initial
capital, `capital[0]` is the undefined NaN sentinel, not `initial_capital`:
the index-0 factor contributes 1 only to the cumulative products of later
entries, while entry 0 of the capital trajectory itself stays NaN. -/
theorem C2_capital_head_nan (data : DataFrame) (initial_capital : ℝ)
    (h2 : 2 ≤ data.adjClose.length) (hic : 0 < initial_capital) :
    ((visualize_interactive data initial_capital).df.capital.getD []).get? 0 =
      some none := by
  obtain ⟨p, ps, hp⟩ : ∃ p ps, data.adjClose = p :: ps := by
    cases h : data.adjClose with
    | nil => rw [h] at h2; simp at h2
    | cons p ps => exact ⟨p, ps, rfl⟩
  show (capitalOf initial_capital (cumprod (addOne (strategyReturnsOf
      (shiftSignal (data.signal.getD [])) (returnsOf data.adjClose))))).get? 0 = some none
  rw [hp]
  rfl

theorem C2_capital_head_nan_witness :
    ((visualize_interactive { adjClose := [(100 : ℝ), 101], signal := some [1, -1] }
        1000).df.capital.getD []).get? 0 = some none :=
  C2_capital_head_nan { adjClose := [(100 : ℝ), 101], signal := some [1, -1] } 1000
    (by norm_num) (by norm_num)

theorem shiftOpt_get? (xs : List ℝ) (i : Nat) (h1 : 1 ≤ i) (hi : i < xs.length) :
    (shiftOpt xs).get? i = some (some (xs.getD (i - 1) 0)) := by
  obtain ⟨j, rfl⟩ : ∃ j, i = j + 1 := ⟨i - 1, by omega⟩
  show (xs.dropLast.map some).get? j = some (some (xs.getD (j + 1 - 1) 0))
  rw [List.get?_eq_getElem?, List.getElem?_map, List.dropLast_eq_take,
    List.getElem?_take_of_lt (by omega), ← List.get?_eq_getElem?,
    get?_some_of_lt xs 0 j (by omega)]
  rfl

theorem returnsOf_get? (xs : List ℝ) (i : Nat) (h1 : 1 ≤ i) (hi : i < xs.length) :
    (returnsOf xs).get? i =
      some (some (Real.log (xs.getD i 0 / xs.getD (i - 1) 0))) := by
  rw [returnsOf, List.get?_zipWith', get?_some_of_lt xs 0 i hi, shiftOpt_get? xs i h1 hi]
  rfl

theorem shiftSignal_get? (sig : List Int) (i : Nat) (h1 : 1 ≤ i) (hi : i < sig.length) :
    (shiftSignal sig).get? i = some (sig.getD (i - 1) 0) := by
  obtain ⟨j, rfl⟩ : ∃ j, i = j + 1 := ⟨i - 1, by omega⟩
  show (sig.dropLast).get? j = some (sig.getD (j + 1 - 1) 0)
  rw [List.dropLast_eq_take, List.get?_eq_getElem?, List.getElem?_take_of_lt (by omega),
    ← List.get?_eq_getElem?, get?_some_of_lt sig 0 j (by omega)]
  rfl

theorem strategyReturnsOf_get? (pos : List Int) (rets : List (Option ℝ)) (i : Nat)
    (hp : i < pos.length) (hr : i < rets.length) :
    (strategyReturnsOf pos rets).get? i =
      some ((rets.getD i none).map fun r0 => ((pos.getD i 0 : Int) : ℝ) * r0) := by
  rw [strategyReturnsOf, List.get?_zipWith', get?_some_of_lt pos 0 i hp,
    get?_some_of_lt rets none i hr]
  rfl

theorem addOne_get? (xs : List (Option ℝ)) (i : Nat) (hi : i < xs.length) :
    (addOne xs).get? i = some ((xs.getD i none).map (· + 1)) := by
  rw [addOne, List.get?_eq_getElem?, List.getElem?_map, ← List.get?_eq_getElem?,
    get?_some_of_lt xs none i hi]
  rfl

/-- Product of the defined (non-NaN) entries of a column. -/
noncomputable def prodSome (xs : List (Option ℝ)) : ℝ := (xs.filterMap id).prod

theorem cumprodAux_get? (xs : List (Option ℝ)) (acc : ℝ) (i : Nat) (hi : i < xs.length) :
    (cumprodAux acc xs).get? i =
      some ((xs.getD i none).map fun _ => acc * prodSome (xs.take (i + 1))) := by
  induction xs generalizing acc i with
  | nil => simp at hi
  | cons a t ih =>
    cases a with
    | none =>
      cases i with
      | zero => rfl
      | succ j =>
        have hj : j < t.length := by
          simpa using hi
        exact ih acc j hj
    | some x =>
      cases i with
      | zero =>
        show some (some (acc * x)) =
          some ((some x).map fun _ => acc * prodSome ((some x :: t).take 1))
        simp [prodSome]
      | succ j =>
        have hj : j < t.length := by
          simpa using hi
        show (cumprodAux (acc * x) t).get? j =
          some (((some x :: t).getD (j + 1) none).map fun _ =>
            acc * prodSome ((some x :: t).take (j + 1 + 1)))
        rw [ih (acc * x) j hj]
        have hp : prodSome ((some x :: t).take (j + 1 + 1)) =
            x * prodSome (t.take (j + 1)) := by
          simp [prodSome]
        simp only [List.getD_cons_succ, hp, mul_assoc]

theorem prodSome_take (xs : List (Option ℝ)) (g : Nat → ℝ) (i : Nat)
    (h0 : xs.get? 0 = some none)
    (hj : ∀ j, 1 ≤ j → j ≤ i → xs.getD j none = some (g j)) (hi : i < xs.length) :
    prodSome (xs.take (i + 1)) = ∏ j ∈ Finset.Icc 1 i, g j := by
  induction i with
  | zero =>
    have hx0 : xs.take 1 = [none] := by
      rw [List.take_succ, List.take_zero, ← List.get?_eq_getElem?, h0]
      rfl
    rw [hx0]
    simp [prodSome]
  | succ m ih =>
    have hg : xs[m + 1]? = some (some (g (m + 1))) := by
      rw [← List.get?_eq_getElem?, get?_some_of_lt xs none (m + 1) (by omega),
        hj (m + 1) (by omega) (by omega)]
    rw [List.take_succ, hg]
    have happ : prodSome (xs.take (m + 1) ++ (some (some (g (m + 1))) :
        Option (Option ℝ)).toList) = prodSome (xs.take (m + 1)) * g (m + 1) := by
      simp [prodSome, List.filterMap_append]
    rw [happ, ih (fun j hj1 hj2 => hj j hj1 (by omega)) (by omega),
      Finset.prod_Icc_succ_top (by omega : 1 ≤ m + 1)]

theorem cumprodAux_length (xs : List (Option ℝ)) (acc : ℝ) :
    (cumprodAux acc xs).length = xs.length := by
  induction xs generalizing acc with
  | nil => rfl
  | cons a t ih =>
    cases a with
    | none => simp [cumprodAux, ih]
    | some x => simp [cumprodAux, ih]

theorem shiftSignal_length (sig : List Int) (h : sig ≠ []) :
    (shiftSignal sig).length = sig.length := by
  have := List.length_pos.mpr h
  simp only [shiftSignal, List.length_cons, List.length_dropLast]
  omega

theorem returnsOf_length (xs : List ℝ) (h : xs ≠ []) :
    (returnsOf xs).length = xs.length := by
  have := List.length_pos.mpr h
  simp only [returnsOf, List.length_zipWith, shiftOpt, List.length_cons,
    List.length_map, List.length_dropLast]
  omega

/-- The per-bar log return stated by the spec: `ln(price[i] / price[i-1])`. -/
noncomputable def specRet (p : List ℝ) (i : Nat) : ℝ :=
  Real.log (p.getD i 0 / p.getD (i - 1) 0)

/-- The cumulative compounding factor stated by the spec at index `i`: the
product of `1 + strategy_ret[j]` over `1 ≤ j ≤ i`, with the index-0 term
contributing the factor 1. -/
noncomputable def specCum (p : List ℝ) (sig : List Int) (i : Nat) : ℝ :=
  ∏ j ∈ Finset.Icc 1 i, (1 + ((sig.getD (j - 1) 0 : Int) : ℝ) * specRet p j)

theorem visualize_returns (data : DataFrame) (ic : ℝ) :
    (visualize_interactive data ic).df.returns = some (returnsOf data.adjClose) := rfl

theorem visualize_position (data : DataFrame) (ic : ℝ) :
    (visualize_interactive data ic).df.position =
      some (shiftSignal (data.signal.getD [])) := rfl

theorem visualize_strategyReturns (data : DataFrame) (ic : ℝ) :
    (visualize_interactive data ic).df.strategyReturns =
      some (strategyReturnsOf (shiftSignal (data.signal.getD []))
        (returnsOf data.adjClose)) := rfl

theorem visualize_cumulative (data : DataFrame) (ic : ℝ) :
    (visualize_interactive data ic).df.cumulative =
      some (cumprod (addOne (strategyReturnsOf (shiftSignal (data.signal.getD []))
        (returnsOf data.adjClose)))) := rfl

theorem visualize_capital (data : DataFrame) (ic : ℝ) :
    (visualize_interactive data ic).df.capital =
      some (capitalOf ic (cumprod (addOne (strategyReturnsOf
        (shiftSignal (data.signal.getD [])) (returnsOf data.adjClose))))) := rfl

theorem visualize_final (data : DataFrame) (ic : ℝ) :
    (visualize_interactive data ic).final_capital =
      (capitalOf ic (cumprod (addOne (strategyReturnsOf
        (shiftSignal (data.signal.getD [])) (returnsOf data.adjClose))))).getLastD
        none := rfl

theorem visualize_roi (data : DataFrame) (ic : ℝ) :
    (visualize_interactive data ic).cumulative_roi =
      ((visualize_interactive data ic).final_capital).map
        fun f => (f - ic) / ic * 100 := rfl

/-- C1: for every price series with at least 2 bars and every aligned signal
series, the simulation of `visualize_interactive` satisfies, at every index
`i ≥ 1`: `ret[i] = ln(price[i]/price[i-1])`, `position[i] = signal[i-1]`,
`strategy_ret[i] = position[i] * ret[i]`, `cum[i]` is the product of
`1 + strategy_ret[j]` over `j ≤ i` with the index-0 term contributing factor
1, and `capital[i] = initial_capital * cum[i]`; moreover
`final_capital = capital[last]`,
`roi = (final_capital - initial_capital)/initial_capital * 100`, and
`position[0] = 0`. -/
theorem C1_return_simulation (data : DataFrame) (signals : List Int) (ic : ℝ)
    (hsig : data.signal = some signals)
    (hlen : signals.length = data.adjClose.length)
    (h2 : 2 ≤ data.adjClose.length) :
    (∀ i, 1 ≤ i → i < data.adjClose.length →
      ((visualize_interactive data ic).df.returns.getD []).get? i =
        some (some (specRet data.adjClose i)) ∧
      ((visualize_interactive data ic).df.position.getD []).get? i =
        some (signals.getD (i - 1) 0) ∧
      ((visualize_interactive data ic).df.strategyReturns.getD []).get? i =
        some (some (((signals.getD (i - 1) 0 : Int) : ℝ) * specRet data.adjClose i)) ∧
      ((visualize_interactive data ic).df.cumulative.getD []).get? i =
        some (some (specCum data.adjClose signals i)) ∧
      ((visualize_interactive data ic).df.capital.getD []).get? i =
        some (some (ic * specCum data.adjClose signals i))) ∧
    (visualize_interactive data ic).final_capital =
      some (ic * specCum data.adjClose signals (data.adjClose.length - 1)) ∧
    (visualize_interactive data ic).cumulative_roi =
      some ((ic * specCum data.adjClose signals (data.adjClose.length - 1) - ic) /
        ic * 100) ∧
    ((visualize_interactive data ic).df.position.getD []).get? 0 = some 0 := by
  have hne : data.adjClose ≠ [] := by
    intro h
    rw [h] at h2
    simp at h2
  have hsne : signals ≠ [] := by
    intro h
    rw [h] at hlen
    simp at hlen
    omega
  simp only [visualize_returns, visualize_position, visualize_strategyReturns,
    visualize_cumulative, visualize_capital, visualize_final, visualize_roi,
    hsig, Option.getD_some]
  have hrl : (returnsOf data.adjClose).length = data.adjClose.length :=
    returnsOf_length _ hne
  have hpl : (shiftSignal signals).length = data.adjClose.length := by
    rw [shiftSignal_length signals hsne, hlen]
  have hsrl : (strategyReturnsOf (shiftSignal signals)
      (returnsOf data.adjClose)).length = data.adjClose.length := by
    simp only [strategyReturnsOf, List.length_zipWith, hrl, hpl, min_self]
  have hs1l : (addOne (strategyReturnsOf (shiftSignal signals)
      (returnsOf data.adjClose))).length = data.adjClose.length := by
    simp only [addOne, List.length_map, hsrl]
  have hcl : (cumprod (addOne (strategyReturnsOf (shiftSignal signals)
      (returnsOf data.adjClose)))).length = data.adjClose.length := by
    rw [cumprod, cumprodAux_length, hs1l]
  have hcapl : (capitalOf ic (cumprod (addOne (strategyReturnsOf (shiftSignal signals)
      (returnsOf data.adjClose))))).length = data.adjClose.length := by
    simp only [capitalOf, List.length_map, hcl]
  have hsr : ∀ i, 1 ≤ i → i < data.adjClose.length →
      (strategyReturnsOf (shiftSignal signals) (returnsOf data.adjClose)).get? i =
        some (some (((signals.getD (i - 1) 0 : Int) : ℝ) * specRet data.adjClose i)) := by
    intro i h1 hi
    rw [strategyReturnsOf_get? _ _ i (by omega) (by omega)]
    have hr : (returnsOf data.adjClose).getD i none = some (specRet data.adjClose i) :=
      Option.some.inj
        ((get?_some_of_lt _ none i (by omega)).symm.trans (returnsOf_get? _ i h1 hi))
    have hpv : (shiftSignal signals).getD i 0 = signals.getD (i - 1) 0 :=
      Option.some.inj ((get?_some_of_lt _ 0 i (by omega)).symm.trans
        (shiftSignal_get? signals i h1 (by omega)))
    rw [hr, hpv]
    rfl
  have hsr0 : (strategyReturnsOf (shiftSignal signals)
      (returnsOf data.adjClose)).get? 0 = some none := by
    rw [strategyReturnsOf_get? _ _ 0 (by omega) (by omega)]
    have h0 : (returnsOf data.adjClose).get? 0 = some none := by
      cases hx : data.adjClose with
      | nil => exact absurd hx hne
      | cons p ps => rfl
    have : (returnsOf data.adjClose).getD 0 none = none :=
      Option.some.inj ((get?_some_of_lt _ none 0 (by omega)).symm.trans h0)
    rw [this]
    rfl
  have hs1zero : (addOne (strategyReturnsOf (shiftSignal signals)
      (returnsOf data.adjClose))).get? 0 = some none := by
    rw [addOne_get? _ 0 (by omega)]
    have hg : (strategyReturnsOf (shiftSignal signals)
        (returnsOf data.adjClose)).getD 0 none = none :=
      Option.some.inj ((get?_some_of_lt _ none 0 (by omega)).symm.trans hsr0)
    rw [hg]
    rfl
  have hs1j : ∀ j, 1 ≤ j → j < data.adjClose.length →
      (addOne (strategyReturnsOf (shiftSignal signals)
        (returnsOf data.adjClose))).getD j none =
        some (1 + ((signals.getD (j - 1) 0 : Int) : ℝ) * specRet data.adjClose j) := by
    intro j h1 hj
    have hget := addOne_get? (strategyReturnsOf (shiftSignal signals)
      (returnsOf data.adjClose)) j (by omega)
    have hsrg : (strategyReturnsOf (shiftSignal signals)
        (returnsOf data.adjClose)).getD j none =
        some (((signals.getD (j - 1) 0 : Int) : ℝ) * specRet data.adjClose j) :=
      Option.some.inj ((get?_some_of_lt _ none j (by omega)).symm.trans (hsr j h1 hj))
    rw [hsrg] at hget
    have hout := Option.some.inj
      ((get?_some_of_lt (addOne (strategyReturnsOf (shiftSignal signals)
        (returnsOf data.adjClose))) none j (by omega)).symm.trans hget)
    rw [hout]
    simp [add_comm]
  have hcum : ∀ i, 1 ≤ i → i < data.adjClose.length →
      (cumprod (addOne (strategyReturnsOf (shiftSignal signals)
        (returnsOf data.adjClose)))).get? i =
        some (some (specCum data.adjClose signals i)) := by
    intro i h1 hi
    rw [cumprod, cumprodAux_get? _ 1 i (by omega), hs1j i h1 hi,
      prodSome_take _ (fun j => 1 + ((signals.getD (j - 1) 0 : Int) : ℝ) *
        specRet data.adjClose j) i hs1zero
        (fun j hj1 hj2 => hs1j j hj1 (by omega)) (by omega)]
    simp only [Option.map_some']
    rw [one_mul]
    rfl
  have hcap : ∀ i, 1 ≤ i → i < data.adjClose.length →
      (capitalOf ic (cumprod (addOne (strategyReturnsOf (shiftSignal signals)
        (returnsOf data.adjClose))))).get? i =
        some (some (ic * specCum data.adjClose signals i)) := by
    intro i h1 hi
    rw [capitalOf, List.get?_eq_getElem?, List.getElem?_map, ← List.get?_eq_getElem?,
      hcum i h1 hi]
    rfl
  have hfin : (capitalOf ic (cumprod (addOne (strategyReturnsOf (shiftSignal signals)
      (returnsOf data.adjClose))))).getLastD none =
      some (ic * specCum data.adjClose signals (data.adjClose.length - 1)) := by
    rw [List.getLastD_eq_getLast?, List.getLast?_eq_getElem?, hcapl,
      ← List.get?_eq_getElem?, hcap (data.adjClose.length - 1) (by omega) (by omega)]
    rfl
  refine ⟨fun i h1 hi => ⟨returnsOf_get? _ i h1 hi,
    shiftSignal_get? signals i h1 (by omega), hsr i h1 hi, hcum i h1 hi,
    hcap i h1 hi⟩, hfin, ?_, rfl⟩
  rw [hfin]
  rfl

theorem C1_return_simulation_witness :
    ((visualize_interactive { adjClose := [(100 : ℝ), 101], signal := some [1, -1] }
        1000).df.position.getD []).get? 0 = some 0 ∧
    ((visualize_interactive { adjClose := [(100 : ℝ), 101], signal := some [1, -1] }
        1000).df.position.getD []).get? 1 = some (([1, -1] : List Int).getD 0 0) ∧
    ((visualize_interactive { adjClose := [(100 : ℝ), 101], signal := some [1, -1] }
        1000).df.returns.getD []).get? 1 =
      some (some (specRet [(100 : ℝ), 101] 1)) := by
  obtain ⟨hpt, hfin, hroi, hpos0⟩ :=
    C1_return_simulation { adjClose := [(100 : ℝ), 101], signal := some [1, -1] }
      [1, -1] 1000 rfl (by norm_num) (by norm_num)
  obtain ⟨hr, hp, hs, hc, hk⟩ := hpt 1 (by norm_num) (by norm_num)
  exact ⟨hpos0, hp, hr⟩

/-- Models the `style_multipliers` dict lookup of `calculate_investment_growth`
(`new_app.py` lines 50-53): Aggressive ↦ 1.5, Moderate ↦ 1.0, Passive ↦ 0.75,
and `none` for every other name (the function raises `ValueError` there). -/
def style_multipliers (style : String) : Option ℚ :=
  if style = "Aggressive" then some (3 / 2)
  else if style = "Moderate" then some 1
  else if style = "Passive" then some (3 / 4)
  else none

/-- Models `calculate_investment_growth(data, amount, style)` (`new_app.py`
lines 47-58): for a recognized style it returns the proportional trend column
`(close[i] / close[0]) * amount * multiplier` (also written into the frame),
the final growth value `(close[-1] / close[0]) * amount * multiplier` and the
ROI `(growth - amount) / amount * 100`; the `ValueError` raised for an
unrecognized style is modeled as `none`. -/
def calculate_investment_growth (close : List ℚ) (amount : ℚ) (style : String) :
    Option (List ℚ × ℚ × ℚ) :=
  match style_multipliers style with
  | none => none
  | some multiplier =>
    let start_price := close.headD 0
    let end_price := close.getLastD 0
    let growth := end_price / start_price * amount * multiplier
    let roi := (growth - amount) / amount * 100
    some (close.map fun p2 => p2 / start_price * amount * multiplier, growth, roi)

theorem headD_eq_getD_zero (l : List ℚ) : l.headD 0 = l.getD 0 0 := by
  cases l <;> rfl

theorem getD_last_map (l : List ℚ) (f : ℚ → ℚ) (h : l ≠ []) :
    (l.map f).getLastD 0 = f (l.getD (l.length - 1) 0) := by
  have hl := List.length_pos.mpr h
  rw [List.getLastD_eq_getLast?, List.getLast?_eq_getElem?, List.length_map,
    ← List.get?_eq_getElem?, List.get?_eq_getElem?, List.getElem?_map,
    ← List.get?_eq_getElem?, get?_some_of_lt l 0 (l.length - 1) (by omega)]
  rfl

theorem getLastD_eq_getD (l : List ℚ) (h : l ≠ []) :
    l.getLastD 0 = l.getD (l.length - 1) 0 := by
  have hl := List.length_pos.mpr h
  rw [List.getLastD_eq_getLast?, List.getLast?_eq_getElem?, ← List.get?_eq_getElem?,
    get?_some_of_lt l 0 (l.length - 1) (by omega)]
  rfl

/-- C9: for every non-empty price series, the growth comparator maps the
three recognized styles to the multipliers 1.5, 1.0 and 0.75, returns
`trend[i] = (price[i] / price[0]) * amount * multiplier` for every index,
`growth = trend[last]`, and `roi = (growth - amount) / amount * 100`; for
every other style name it fails (raising `ValueError`, modeled as `none`). -/
theorem C9_growth_comparator (close : List ℚ) (amount : ℚ) (style : String)
    (m : ℚ) (hne : close ≠ []) :
    style_multipliers "Aggressive" = some (3 / 2) ∧
    style_multipliers "Moderate" = some 1 ∧
    style_multipliers "Passive" = some (3 / 4) ∧
    (style_multipliers style = some m →
      calculate_investment_growth close amount style =
        some (close.map fun p2 => p2 / close.getD 0 0 * amount * m,
          close.getLastD 0 / close.getD 0 0 * amount * m,
          (close.getLastD 0 / close.getD 0 0 * amount * m - amount) / amount * 100) ∧
      (∀ i, i < close.length →
        (close.map fun p2 => p2 / close.getD 0 0 * amount * m).get? i =
          some (close.getD i 0 / close.getD 0 0 * amount * m)) ∧
      close.getLastD 0 / close.getD 0 0 * amount * m =
        (close.map fun p2 => p2 / close.getD 0 0 * amount * m).getLastD 0) ∧
    (style_multipliers style = none →
      calculate_investment_growth close amount style = none) := by
  refine ⟨rfl, rfl, rfl, fun hm => ⟨?_, fun i hi => ?_, ?_⟩, fun hn => ?_⟩
  · simp only [calculate_investment_growth, hm, headD_eq_getD_zero]
  · rw [List.get?_eq_getElem?, List.getElem?_map, ← List.get?_eq_getElem?,
      get?_some_of_lt close 0 i hi]
    rfl
  · rw [getD_last_map close _ hne, getLastD_eq_getD close hne]
  · simp only [calculate_investment_growth, hn]

theorem C9_growth_comparator_witness :
    calculate_investment_growth [(10 : ℚ), 20] 1000 "Aggressive" =
      some (([(10 : ℚ), 20]).map
          fun p2 => p2 / ([(10 : ℚ), 20]).getD 0 0 * 1000 * (3 / 2),
        ([(10 : ℚ), 20]).getLastD 0 / ([(10 : ℚ), 20]).getD 0 0 * 1000 * (3 / 2),
        (([(10 : ℚ), 20]).getLastD 0 / ([(10 : ℚ), 20]).getD 0 0 * 1000 * (3 / 2) -
          1000) / 1000 * 100) ∧
    calculate_investment_growth [(10 : ℚ), 20] 1000 "Conservative" = none := by
  refine ⟨((C9_growth_comparator [(10 : ℚ), 20] 1000 "Aggressive" (3 / 2)
    (List.cons_ne_nil _ _)).2.2.2.1 rfl).1, (C9_growth_comparator [(10 : ℚ), 20] 1000
    "Conservative" 0 (List.cons_ne_nil _ _)).2.2.2.2 rfl⟩

theorem C10_params_wellformed_witness :
    (adjust_strategy_parameters "Aggressive").sma_short <
      (adjust_strategy_parameters "Aggressive").sma_long ∧
    0 < (adjust_strategy_parameters "Aggressive").bollinger_window ∧
    0 < (adjust_strategy_parameters "Aggressive").bollinger_std :=
  C10_params_wellformed "Aggressive"

theorem C5_empty_guard_witness :
    main_pipeline { adjClose := ([] : List ℝ) } 5 = none :=
  (C5_empty_guard { adjClose := ([] : List ℝ) } 5).mpr rfl

theorem C8_price_columns_preserved_witness :
    pricePreserved (calculate_sma { adjClose := [(1 : ℝ)] } 3 2)
      { adjClose := [(1 : ℝ)] } :=
  (C8_price_columns_preserved { adjClose := [(1 : ℝ)] } 2 3 2 2 5).2.1
